import Mathlib

/-!
Verification of the wigle-u-3d WebGPU energy-life simulation.

Shallow embedding over ℚ of:
- the parameter record and `updateParam` (src/core/WebGPUSimulation3D.js),
- the camera operations (`setRotation`, `adjustRotation`, `adjustDistance`,
  per-frame WASD pan integration in `#updateCamera`),
- the parameter packer `packSimParams` (src/utils/bufferUtils.js, stored in the
  repository alongside errorHandling.js),
- the compute kernel (src/shaders/compute.wgsl.js),
- the hierarchical reduction (reduce shader + `#createReduceResources` /
  `#reducePassAndRead`).

Floating point is modelled by exact rational arithmetic.  The WGSL / JS
math built-ins `exp`, `sin` and `sqrt` are transcendental; they are taken
as explicit function parameters (`expF sinF sqrtF : ℚ → ℚ`) and every
theorem quantifies universally over them, which only strengthens the
statements: none of the verified properties depends on their values.
-/

namespace Wigle

/-! ## Parameter record

The simulation keeps `this.params = { ...DEFAULT_PARAMS }` and mutates it
field-by-field.  A JS object restricted to numeric fields is modelled as an
association list keyed by the property name; property presence (`key in obj`)
is `lookupParam … ≠ none`, property write is `setParamField` (overwrite the
first matching key, append when absent, exactly like JS assignment). -/

abbrev Params := List (String × ℚ)

def lookupParam : Params → String → Option ℚ
  | [], _ => none
  | (k', v) :: rest, k => if k = k' then some v else lookupParam rest k

def setParamField : Params → String → ℚ → Params
  | [], k, v => [(k, v)]
  | (k', v') :: rest, k, v =>
      if k = k' then (k, v) :: rest else (k', v') :: setParamField rest k v

/-- `updateParam(key, value)` from WebGPUSimulation3D.js:
`if (key in this.params) { this.params[key] = value; … }` — no validation or
clamping of `value` is performed. -/
def updateParam (p : Params) (k : String) (v : ℚ) : Params :=
  if (lookupParam p k).isSome then setParamField p k v else p

/-- `DEFAULT_PARAMS` from src/config (the 3-D defaults that include
`growthWidthNorm`, `paletteMode`, `neighborMode`, `raySteps`).  Note that
neither `globalAverage` nor `energyRangeFilters` is a key of the record. -/
def DEFAULT_PARAMS : Params :=
  [ ("innerRadius", 33/10)
  , ("innerStrength", 88/100)
  , ("outerRadius", 75/10)
  , ("outerStrength", -4/10)
  , ("growthCenter", -606/10000)
  , ("growthWidth", 1/10)
  , ("growthRate", 607/1000)
  , ("decayRate", 37/100)
  , ("diffusionRate", 589/1000)
  , ("fissionThreshold", 888/1000)
  , ("suppressionFactor", 1)
  , ("instabilityFactor", 15/10)
  , ("growthWidthNorm", 5/10)
  , ("paletteMode", 0)
  , ("neighborMode", 6)
  , ("raySteps", 96) ]

/-- `PARAM_SPECS` (key, slider min, slider max) from src/config: the
documented domain of each user-adjustable field. -/
def PARAM_SPECS : List (String × ℚ × ℚ) :=
  [ ("innerRadius", 1, 10)
  , ("innerStrength", 0, 2)
  , ("outerRadius", 5, 15)
  , ("outerStrength", -2, 0)
  , ("decayRate", 0, 1)
  , ("diffusionRate", 0, 1)
  , ("fissionThreshold", 5/10, 95/100)
  , ("growthCenter", -2, 2)
  , ("growthWidth", 1/10000, 1)
  , ("growthRate", 1/1000, 1)
  , ("suppressionFactor", 0, 2)
  , ("instabilityFactor", 0, 3)
  , ("growthWidthNorm", 0, 4) ]

def specFor : List (String × ℚ × ℚ) → String → Option (ℚ × ℚ)
  | [], _ => none
  | (k', lo, hi) :: rest, k => if k = k' then some (lo, hi) else specFor rest k

/-- Key lookup after a field write: the written key reads back as the new
value, every other key is unchanged (JS property-assignment semantics). -/
theorem lookupParam_setParamField (p : Params) (k j : String) (v : ℚ) :
    lookupParam (setParamField p k v) j =
      if j = k then some v else lookupParam p j := by
  induction p with
  | nil =>
      by_cases hj : j = k <;> simp [setParamField, lookupParam, hj]
  | cons kv rest ih =>
      obtain ⟨k', v'⟩ := kv
      by_cases hk : k = k'
      · subst hk
        by_cases hj : j = k <;> simp [setParamField, lookupParam, hj]
      · by_cases hj : j = k'
        · subst hj
          have hjk : ¬ j = k := fun h => hk h.symm
          simp [setParamField, lookupParam, hk, hjk, ih]
        · simp [setParamField, lookupParam, hk, hj, ih]

theorem lookupParam_updateParam (p : Params) (k j : String) (v : ℚ) :
    lookupParam (updateParam p k v) j =
      if (lookupParam p k).isSome ∧ j = k then some v else lookupParam p j := by
  unfold updateParam
  by_cases hp : (lookupParam p k).isSome
  · simp [hp, lookupParam_setParamField]
  · simp [hp]

/-! ## Camera state machine

Camera state and operations from WebGPUSimulation3D.js: `setRotation`,
`adjustRotation`, `adjustDistance` and the per-frame WASD pan integration
`#updateCamera`.  Constants from src/config/constants.js:
`CAMERA_BOUNDS = { min: 1.2, max: 4.0 }`, `PAN_SPEED = 0.35`,
`ROTATE_SENSITIVITY = 0.004`, `INITIAL_DISTANCE = 2.2`.

`adjustRotation` scales mouse deltas by `ROTATE_SENSITIVITY * (180/Math.PI)`
and `#updateCamera` uses `Math.sin/Math.cos` of the yaw; the irrational
factors `180/π`, `sin(yaw)`, `cos(yaw)` are carried inside the operation as
explicit rational inputs (`degPerRad`, `s`, `c`), over which all theorems
quantify. -/

def ROTATE_SENSITIVITY : ℚ := 4/1000
def PAN_SPEED : ℚ := 35/100
def CAMERA_BOUNDS_MIN : ℚ := 12/10
def CAMERA_BOUNDS_MAX : ℚ := 4
def INITIAL_DISTANCE : ℚ := 22/10

structure CamState where
  yaw : ℚ
  pitch : ℚ
  dist : ℚ
  offsetX : ℚ
  offsetY : ℚ
  deriving DecidableEq

/-- Initial camera state of `main.js`: `yaw = INITIAL_YAW = 0`,
`pitch = INITIAL_PITCH = 0`, `distance = INITIAL_DISTANCE`, offsets 0. -/
def camInit : CamState :=
  { yaw := 0, pitch := 0, dist := INITIAL_DISTANCE, offsetX := 0, offsetY := 0 }

inductive CamOp where
  | setRot (yawDeg pitchDeg : ℚ)
  | adjRot (dx dy degPerRad : ℚ)
  | adjDist (delta : ℚ)
  | panStep (s c dt : ℚ) (kw ka ks kd : Bool)
  deriving DecidableEq

/-- One camera operation, translated line by line:
* `setRotation(yawDeg, pitchDeg)`: stores both angles raw (no clamp);
* `adjustRotation(dx, dy)`: adds the scaled deltas, then clamps only the
  pitch to `[-179, 179]`;
* `adjustDistance(delta)`: `distance = min(max, max(min, distance*(1+delta)))`;
* `#updateCamera(dt)`: pan by yaw-relative forward `(s, c)` / right
  `(c, -s)` vectors at `PAN_SPEED*dt` for each held key, then clamp both
  offsets to `[-0.5, 0.5]`. -/
def applyCamOp (st : CamState) : CamOp → CamState
  | .setRot yawDeg pitchDeg => { st with yaw := yawDeg, pitch := pitchDeg }
  | .adjRot dx dy degPerRad =>
      let yaw' := st.yaw + dx * ROTATE_SENSITIVITY * degPerRad
      let pitch0 := st.pitch + dy * ROTATE_SENSITIVITY * degPerRad
      let pitch' := max (-179) (min 179 pitch0)
      { st with yaw := yaw', pitch := pitch' }
  | .adjDist delta =>
      let d' := min CAMERA_BOUNDS_MAX (max CAMERA_BOUNDS_MIN (st.dist * (1 + delta)))
      { st with dist := d' }
  | .panStep s c dt kw ka ks kd =>
      let speed := PAN_SPEED * dt
      let ox1 := if kw then st.offsetX + s * speed else st.offsetX
      let oy1 := if kw then st.offsetY + c * speed else st.offsetY
      let ox2 := if ks then ox1 - s * speed else ox1
      let oy2 := if ks then oy1 - c * speed else oy1
      let ox3 := if ka then ox2 - c * speed else ox2
      let oy3 := if ka then oy2 - (-s) * speed else oy2
      let ox4 := if kd then ox3 + c * speed else ox3
      let oy4 := if kd then oy3 + (-s) * speed else oy3
      { st with offsetX := max (-(5/10)) (min (5/10) ox4),
                offsetY := max (-(5/10)) (min (5/10) oy4) }

def applyCamOps (st : CamState) (ops : List CamOp) : CamState :=
  ops.foldl applyCamOp st

/-- Distance and pan-offset bounds of the spec. -/
def distPanInv (st : CamState) : Prop :=
  (CAMERA_BOUNDS_MIN ≤ st.dist ∧ st.dist ≤ CAMERA_BOUNDS_MAX) ∧
  (-(5/10) ≤ st.offsetX ∧ st.offsetX ≤ 5/10) ∧
  (-(5/10) ≤ st.offsetY ∧ st.offsetY ≤ 5/10)

/-- Pitch bound of the spec. -/
def pitchInv (st : CamState) : Prop := -179 ≤ st.pitch ∧ st.pitch ≤ 179

/-- All camera invariants claimed by the spec. -/
def camInvariant (st : CamState) : Prop := pitchInv st ∧ distPanInv st

/-- An operation is pitch-safe when, if it is a `setRot`, its pitch argument
already lies in `[-179, 179]` (the source stores it unclamped). -/
def setRotPitchOk : CamOp → Prop
  | .setRot _ q => -179 ≤ q ∧ q ≤ 179
  | _ => True

instance (st : CamState) : Decidable (distPanInv st) := by
  unfold distPanInv; infer_instance

instance (st : CamState) : Decidable (pitchInv st) := by
  unfold pitchInv; infer_instance

instance (st : CamState) : Decidable (camInvariant st) := by
  unfold camInvariant; infer_instance

instance (op : CamOp) : Decidable (setRotPitchOk op) := by
  cases op <;> (unfold setRotPitchOk; infer_instance)

/-- Distance and pan bounds hold after every single operation, given any
starting state that satisfies them. -/
theorem distPanInv_step (st : CamState) (op : CamOp) (h : distPanInv st) :
    distPanInv (applyCamOp st op) := by
  obtain ⟨hd, hx, hy⟩ := h
  cases op with
  | setRot yawDeg pitchDeg => exact ⟨hd, hx, hy⟩
  | adjRot dx dy degPerRad => exact ⟨hd, hx, hy⟩
  | adjDist delta =>
      refine ⟨⟨?_, ?_⟩, hx, hy⟩
      · exact le_min (by norm_num [CAMERA_BOUNDS_MIN, CAMERA_BOUNDS_MAX])
          (le_max_left _ _)
      · exact min_le_left _ _
  | panStep s c dt kw ka ks kd =>
      refine ⟨hd, ⟨?_, ?_⟩, ⟨?_, ?_⟩⟩
      · exact le_max_left _ _
      · exact max_le (by norm_num) (min_le_left _ _)
      · exact le_max_left _ _
      · exact max_le (by norm_num) (min_le_left _ _)

/-- Pitch bound is preserved by every pitch-safe operation. -/
theorem pitchInv_step (st : CamState) (op : CamOp) (hp : pitchInv st)
    (hop : setRotPitchOk op) : pitchInv (applyCamOp st op) := by
  cases op with
  | setRot yawDeg pitchDeg => exact hop
  | adjRot dx dy degPerRad =>
      exact ⟨le_max_left _ _, max_le (by norm_num) (min_le_left _ _)⟩
  | adjDist delta => exact hp
  | panStep s c dt kw ka ks kd => exact hp

theorem distPanInv_foldl (ops : List CamOp) :
    ∀ st : CamState, distPanInv st → distPanInv (applyCamOps st ops) := by
  induction ops with
  | nil => exact fun st h => h
  | cons op rest ih =>
      intro st h
      exact ih (applyCamOp st op) (distPanInv_step st op h)

theorem pitchInv_foldl (ops : List CamOp) :
    ∀ st : CamState, pitchInv st → (∀ op ∈ ops, setRotPitchOk op) →
      pitchInv (applyCamOps st ops) := by
  induction ops with
  | nil => exact fun st h _ => h
  | cons op rest ih =>
      intro st h hall
      exact ih (applyCamOp st op)
        (pitchInv_step st op h (hall op (List.mem_cons_self op rest)))
        (fun o ho => hall o (List.mem_cons_of_mem op ho))

/-! ## Hierarchical reduction

The reduce shader (src/shaders/reduce.wgsl.js): each output cell at `gid`
(< `outSize`) averages the 2×2×2 input block at `base = gid*2`, counting
only cells with `all(coord < inSize)`, and divides by `max(count, 1.0)`.
`#createReduceResources` builds the chain of sizes
`size → max(1, ⌊size/2⌋) → … → 1`, and `#reducePassAndRead` encodes the
passes in order, feeding each output texture into the next pass.

Two chain semantics are defined below.  `runReduceSpec` is the chain as the
spec and the shader's own header comment describe it (each pass running
with its own `outSize`).  `runReduce` is the chain as the host code
actually executes it: `#createReduceBindGroup` overwrites the one shared
`reduceParamBuffer` with each pass's `outSize` via `queue.writeBuffer`
while the passes are still only being encoded, and the command buffer is
submitted once at the end — `queue.writeBuffer` settles on the queue
timeline before the later `submit`, so every pass runs with the
last-written `outSize = (1,1,1)`. -/

abbrev Grid := ℕ → ℕ → ℕ → ℚ

/-- `textureLoad` guarded by the reduce shader's `all(coord < inSize)`:
the cell's value when in bounds, else it contributes nothing. -/
def inB (g : Grid) (inSize a b c : ℕ) : ℚ :=
  if a < inSize ∧ b < inSize ∧ c < inSize then g a b c else 0

/-- The matching `count += 1.0` accumulation. -/
def cntB (inSize a b c : ℕ) : ℚ :=
  if a < inSize ∧ b < inSize ∧ c < inSize then 1 else 0

/-- `sum` accumulated by the shader's z/y/x loops over the 2×2×2 block. -/
def reduceCellSum (g : Grid) (inSize x y z : ℕ) : ℚ :=
  inB g inSize (2*x) (2*y) (2*z) + inB g inSize (2*x+1) (2*y) (2*z) +
  inB g inSize (2*x) (2*y+1) (2*z) + inB g inSize (2*x+1) (2*y+1) (2*z) +
  inB g inSize (2*x) (2*y) (2*z+1) + inB g inSize (2*x+1) (2*y) (2*z+1) +
  inB g inSize (2*x) (2*y+1) (2*z+1) + inB g inSize (2*x+1) (2*y+1) (2*z+1)

/-- `count` accumulated by the same loops. -/
def reduceCellCount (inSize x y z : ℕ) : ℚ :=
  cntB inSize (2*x) (2*y) (2*z) + cntB inSize (2*x+1) (2*y) (2*z) +
  cntB inSize (2*x) (2*y+1) (2*z) + cntB inSize (2*x+1) (2*y+1) (2*z) +
  cntB inSize (2*x) (2*y) (2*z+1) + cntB inSize (2*x+1) (2*y) (2*z+1) +
  cntB inSize (2*x) (2*y+1) (2*z+1) + cntB inSize (2*x+1) (2*y+1) (2*z+1)

/-- One pass of the reduce shader: `avg = sum / max(count, 1.0)`. -/
def reducePass (g : Grid) (inSize : ℕ) : Grid :=
  fun x y z => reduceCellSum g inSize x y z / max (reduceCellCount inSize x y z) 1

/-- The downsample chain as the spec (§4.2, §8) and the reduce shader's own
header comment describe it, each pass running with its own `outSize`: while
`size > 1`, run one full pass into a grid of side `max(1, ⌊size/2⌋)`.  This
is what `#reducePassAndRead` intends — it builds one bind group per pass
with that pass's `to` size — and is stated here, following the spec's
words, for comparison with `runReduce`, the chain as actually executed. -/
def runReduceSpec (g : Grid) (size : ℕ) : Grid :=
  if 1 < size then runReduceSpec (reducePass g size) (max 1 (size / 2)) else g
termination_by size
decreasing_by omega

/-- A level texture of the chain as the program leaves it: WebGPU
zero-initializes a fresh texture, and (see `runReduce`) the only texel a
chain pass ever stores is `(0,0,0)`. -/
def cornerOnly (v : ℚ) : Grid := fun x y z => if x = 0 ∧ y = 0 ∧ z = 0 then v else 0

/-- The reduction chain as actually executed by `#reducePassAndRead`.
Because all `queue.writeBuffer` calls on the shared `reduceParamBuffer`
complete before the single `queue.submit`, every encoded pass runs with
`outSize = (1,1,1)`: the shader's `any(gid >= outSize)` guard lets only
invocation `(0,0,0)` proceed, so each level texture holds the one computed
texel and zeros elsewhere (`cornerOnly`), while the in-bounds check still
uses the real `textureDimensions` of the input.  The read-back is texel
`(0,0,0)` of the last level. -/
def runReduce (g : Grid) (size : ℕ) : ℚ :=
  if 1 < size then
    runReduce (cornerOnly (reducePass g size 0 0 0)) (max 1 (size / 2))
  else g 0 0 0
termination_by size
decreasing_by omega

/-- Sum of all cells of the `n³` grid. -/
def sum3 (n : ℕ) (g : Grid) : ℚ :=
  ∑ x ∈ Finset.range n, ∑ y ∈ Finset.range n, ∑ z ∈ Finset.range n, g x y z

/-- Sum of one full 2×2×2 block (loop order of the shader). -/
def blockSum (g : Grid) (x y z : ℕ) : ℚ :=
  g (2*x) (2*y) (2*z) + g (2*x+1) (2*y) (2*z) +
  g (2*x) (2*y+1) (2*z) + g (2*x+1) (2*y+1) (2*z) +
  g (2*x) (2*y) (2*z+1) + g (2*x+1) (2*y) (2*z+1) +
  g (2*x) (2*y+1) (2*z+1) + g (2*x+1) (2*y+1) (2*z+1)

theorem sum_range_two_mul (m : ℕ) (f : ℕ → ℚ) :
    ∑ i ∈ Finset.range (2 * m), f i
      = ∑ q ∈ Finset.range m, (f (2 * q) + f (2 * q + 1)) := by
  induction m with
  | zero => simp
  | succ m ih =>
      have h2 : 2 * (m + 1) = 2 * m + 1 + 1 := by ring
      rw [h2, Finset.sum_range_succ, Finset.sum_range_succ, ih,
        Finset.sum_range_succ]
      ring

theorem sum3_two_mul (m : ℕ) (g : Grid) :
    sum3 (2 * m) g
      = ∑ x ∈ Finset.range m, ∑ y ∈ Finset.range m, ∑ z ∈ Finset.range m,
          blockSum g x y z := by
  unfold sum3
  rw [sum_range_two_mul m
    (fun x => ∑ y ∈ Finset.range (2*m), ∑ z ∈ Finset.range (2*m), g x y z)]
  refine Finset.sum_congr rfl fun x _ => ?_
  rw [sum_range_two_mul m (fun y => ∑ z ∈ Finset.range (2*m), g (2*x) y z),
      sum_range_two_mul m (fun y => ∑ z ∈ Finset.range (2*m), g (2*x+1) y z),
      ← Finset.sum_add_distrib]
  refine Finset.sum_congr rfl fun y _ => ?_
  rw [sum_range_two_mul m (fun z => g (2*x) (2*y) z),
      sum_range_two_mul m (fun z => g (2*x) (2*y+1) z),
      sum_range_two_mul m (fun z => g (2*x+1) (2*y) z),
      sum_range_two_mul m (fun z => g (2*x+1) (2*y+1) z),
      ← Finset.sum_add_distrib, ← Finset.sum_add_distrib,
      ← Finset.sum_add_distrib]
  refine Finset.sum_congr rfl fun z _ => ?_
  unfold blockSum
  ring

/-- In a pass from side `2m` to side `m` every block is fully in bounds, so
each output cell is the block sum divided by 8. -/
theorem reducePass_full (g : Grid) (m x y z : ℕ)
    (hx : x < m) (hy : y < m) (hz : z < m) :
    reducePass g (2 * m) x y z = blockSum g x y z / 8 := by
  have h1 : 2*x < 2*m := by omega
  have h2 : 2*x+1 < 2*m := by omega
  have h3 : 2*y < 2*m := by omega
  have h4 : 2*y+1 < 2*m := by omega
  have h5 : 2*z < 2*m := by omega
  have h6 : 2*z+1 < 2*m := by omega
  simp only [reducePass, reduceCellSum, reduceCellCount, inB, cntB, blockSum,
    h1, h2, h3, h4, h5, h6, and_self, if_true, and_true, true_and]
  norm_num

theorem sum3_reducePass (m : ℕ) (g : Grid) :
    sum3 m (reducePass g (2 * m)) = sum3 (2 * m) g / 8 := by
  rw [sum3_two_mul]
  unfold sum3
  rw [Finset.sum_div]
  refine Finset.sum_congr rfl fun x hx => ?_
  rw [Finset.sum_div]
  refine Finset.sum_congr rfl fun y hy => ?_
  rw [Finset.sum_div]
  refine Finset.sum_congr rfl fun z hz => ?_
  exact reducePass_full g m x y z (Finset.mem_range.mp hx)
    (Finset.mem_range.mp hy) (Finset.mem_range.mp hz)

/-- For a power-of-two grid the spec-described chain computes the exact
arithmetic mean of all cells. -/
theorem runReduceSpec_pow2 (k : ℕ) (g : Grid) :
    runReduceSpec g (2 ^ k) 0 0 0 = sum3 (2 ^ k) g / (((2 : ℕ) ^ k : ℚ)) ^ 3 := by
  induction k generalizing g with
  | zero =>
      rw [runReduceSpec]
      simp [sum3]
  | succ k ih =>
      have hpow : (1 : ℕ) ≤ 2 ^ k := Nat.one_le_two_pow
      have hsz : (2 : ℕ) ^ (k + 1) = 2 * 2 ^ k := by rw [pow_succ]; ring
      have hlt : 1 < 2 ^ (k + 1) := by omega
      rw [runReduceSpec, if_pos hlt]
      have hhalf : max 1 (2 ^ (k + 1) / 2) = 2 ^ k := by omega
      rw [hhalf, ih]
      have hsum : sum3 (2 ^ k) (reducePass g (2 ^ (k + 1)))
          = sum3 (2 ^ (k + 1)) g / 8 := by
        rw [hsz]
        exact sum3_reducePass (2 ^ k) g
      rw [hsum, div_div]
      push_cast
      have hc : ((2 : ℚ) ^ (k + 1)) ^ 3 = 8 * ((2 : ℚ) ^ k) ^ 3 := by ring
      rw [hc]

/-- The offsets of the 2×2×2 block at output cell `(x,y,z)` whose input
coordinates are in bounds. -/
def inBoundsOffsets (inSize x y z : ℕ) : Finset (ℕ × ℕ × ℕ) :=
  ((Finset.range 2) ×ˢ (Finset.range 2) ×ˢ (Finset.range 2)).filter
    (fun o => 2*x + o.1 < inSize ∧ 2*y + o.2.1 < inSize ∧ 2*z + o.2.2 < inSize)

theorem reduceCellSum_eq (g : Grid) (inSize x y z : ℕ) :
    reduceCellSum g inSize x y z
      = ∑ o ∈ inBoundsOffsets inSize x y z,
          g (2*x + o.1) (2*y + o.2.1) (2*z + o.2.2) := by
  rw [inBoundsOffsets, Finset.sum_filter]
  simp only [Finset.sum_product, Finset.sum_range_succ, Finset.sum_range_zero]
  simp only [reduceCellSum, inB, Nat.add_zero, zero_add]
  ring

theorem reduceCellCount_eq (inSize x y z : ℕ) :
    reduceCellCount inSize x y z = ((inBoundsOffsets inSize x y z).card : ℚ) := by
  rw [Finset.card_eq_sum_ones, Nat.cast_sum, inBoundsOffsets, Finset.sum_filter]
  simp only [Finset.sum_product, Finset.sum_range_succ, Finset.sum_range_zero]
  simp only [reduceCellCount, cntB, Nat.add_zero, zero_add, Nat.cast_one]
  ring

/-- A reduce-pass output cell whose block has at least one in-bounds input
cell is the average over exactly its in-bounds cells. -/
theorem reducePass_partial (g : Grid) (inSize x y z : ℕ)
    (h : 0 < (inBoundsOffsets inSize x y z).card) :
    reducePass g inSize x y z
      = (∑ o ∈ inBoundsOffsets inSize x y z,
            g (2*x + o.1) (2*y + o.2.1) (2*z + o.2.2))
          / ((inBoundsOffsets inSize x y z).card : ℚ) := by
  unfold reducePass
  rw [reduceCellSum_eq, reduceCellCount_eq]
  have h1 : (1 : ℚ) ≤ ((inBoundsOffsets inSize x y z).card : ℚ) := by
    exact_mod_cast h
  rw [max_eq_left h1]

/-! ## Compute kernel (src/shaders/compute.wgsl.js)

Per-cell update: weighted potential over the spherical kernel (weights via
the host-built 1-D LUT), Gaussian growth with fission instability,
quadratic metabolism, 6/18/26-neighbor Laplacian diffusion, fission noise,
and hash noise, integrated and clamped to [0,1]. -/

/-- `KERNEL_SIZE = 10` from src/config/constants.js, template-substituted
into the shader as the loop bound `KERNEL`. -/
def KERNEL_SIZE : ℤ := 10

/-- Truncation toward zero: the semantics of WGSL/JS float-to-int casts. -/
def truncQ (q : ℚ) : ℤ := Int.tdiv q.num (q.den : ℤ)

/-- WGSL `%` on i32 truncates toward zero; `wrapCoord` shifts a negative
remainder up by `dim`. -/
def wrapCoord (c dim : ℤ) : ℤ :=
  let v := Int.tmod c dim
  if v < 0 then v + dim else v

/-- `loadEnergy`: toroidal wrap of each coordinate, then `textureLoad`.
The grid is cubic; `dims` holds the common side. -/
def loadEnergy (g : Grid) (dims : ℤ) (x y z : ℤ) : ℚ :=
  g (wrapCoord x dims).toNat (wrapCoord y dims).toNat (wrapCoord z dims).toNat

/-- One texel of the host-built weight LUT (`#createKernelWeightLUT`):
`exp(-2 t²)` sampled at `t = i/255` (256 texels, red channel). -/
def lutTexel (expF : ℚ → ℚ) (i : ℕ) : ℚ :=
  expF (-2 * ((i : ℚ) / 255) * ((i : ℚ) / 255))

/-- Shader `kernelWeight`; the outer-ring Gaussian is fetched from the LUT
at index `i32(t * 255.0)`. -/
def kernelWeight (expF : ℚ → ℚ)
    (dist innerRadius innerStrength outerRadius outerStrength : ℚ) : ℚ :=
  let w1 : ℚ :=
    if dist < innerRadius then
      let t := 1 - dist / innerRadius
      innerStrength * t * t
    else 0
  let ringStart := innerRadius + 1
  let ringEnd := outerRadius
  if ringStart < dist ∧ dist < ringEnd then
    let t := (dist - ringStart) / (ringEnd - ringStart)
    let lutIndex := truncQ (t * 255)
    w1 + outerStrength * lutTexel expF lutIndex.toNat
  else w1

/-- Shader `growthFunction`: Gaussian bell with instability subtraction
above the fission threshold. -/
def growthFunction (expF : ℚ → ℚ)
    (potential currentEnergy center width threshold instability : ℚ) : ℚ :=
  let x := (potential - center) / width
  let bell := expF (-x * x * (5/10))
  if currentEnergy > threshold then
    bell - (currentEnergy - threshold) / (1 - threshold) * instability
  else bell

/-- Shader `laplacian`: face neighbors always; edge neighbors (weight
`0.7071`) when `neighborMode >= 18`; corner neighbors (weight `0.5774`)
when `neighborMode >= 26`; center coefficient is the sum of used weights. -/
def laplacian (g : Grid) (dims : ℤ) (cx cy cz : ℤ)
    (current neighborMode : ℚ) : ℚ :=
  let s1 :=
    loadEnergy g dims (cx+1) cy cz + loadEnergy g dims (cx-1) cy cz +
    loadEnergy g dims cx (cy+1) cz + loadEnergy g dims cx (cy-1) cz +
    loadEnergy g dims cx cy (cz+1) + loadEnergy g dims cx cy (cz-1)
  let c1 : ℚ := 6
  let s2 :=
    if neighborMode ≥ 18 then
      s1 + (7071/10000) *
        (loadEnergy g dims (cx+1) (cy+1) cz + loadEnergy g dims (cx+1) (cy-1) cz +
         loadEnergy g dims (cx-1) (cy+1) cz + loadEnergy g dims (cx-1) (cy-1) cz +
         loadEnergy g dims (cx+1) cy (cz+1) + loadEnergy g dims (cx+1) cy (cz-1) +
         loadEnergy g dims (cx-1) cy (cz+1) + loadEnergy g dims (cx-1) cy (cz-1) +
         loadEnergy g dims cx (cy+1) (cz+1) + loadEnergy g dims cx (cy+1) (cz-1) +
         loadEnergy g dims cx (cy-1) (cz+1) + loadEnergy g dims cx (cy-1) (cz-1))
    else s1
  let c2 := if neighborMode ≥ 18 then c1 + 12 * (7071/10000) else c1
  let s3 :=
    if neighborMode ≥ 26 then
      s2 + (5774/10000) *
        (loadEnergy g dims (cx+1) (cy+1) (cz+1) + loadEnergy g dims (cx+1) (cy+1) (cz-1) +
         loadEnergy g dims (cx+1) (cy-1) (cz+1) + loadEnergy g dims (cx+1) (cy-1) (cz-1) +
         loadEnergy g dims (cx-1) (cy+1) (cz+1) + loadEnergy g dims (cx-1) (cy+1) (cz-1) +
         loadEnergy g dims (cx-1) (cy-1) (cz+1) + loadEnergy g dims (cx-1) (cy-1) (cz-1))
    else s2
  let c3 := if neighborMode ≥ 26 then c2 + 8 * (5774/10000) else c2
  s3 - c3 * current

def U32 : ℕ := 2 ^ 32

/-- Shader `hash31` on u32 vectors (all arithmetic wraps mod 2³²);
the result is `(h & 0x7fffff) / 0x800000 ∈ [0, 1)`. -/
def hash31 (p1 p2 p3 : ℕ) : ℚ :=
  let h0 := (p1 * 0x1e35a7bd + p2 * 0x94d049bb + p3 * 0x5bd1e995) % U32
  let h1 := ((h0 ^^^ (h0 >>> 15)) * 0x2c1b3c6d) % U32
  let h2 := h1 ^^^ (h1 >>> 12)
  ((h2 &&& 0x007fffff : ℕ) : ℚ) / ((0x00800000 : ℕ) : ℚ)

/-- The uniform block `SimParams` as read by the compute and render
shaders, one named scalar per used slot. -/
structure SimParamsU where
  dimsX : ℕ
  innerRadius : ℚ
  innerStrength : ℚ
  outerRadius : ℚ
  outerStrength : ℚ
  growthCenter : ℚ
  growthWidth : ℚ
  growthRate : ℚ
  suppressionFactor : ℚ
  globalAverage : ℚ
  decayRate : ℚ
  diffusionRate : ℚ
  fissionThreshold : ℚ
  instabilityFactor : ℚ
  growthWidthNorm : ℚ
  neighborMode : ℚ
  raySteps : ℚ
  yawRad : ℚ
  pitchRad : ℚ
  camDistance : ℚ
  seed : ℚ
  offsetX : ℚ
  offsetY : ℚ
  time : ℚ
  packed : ℚ

/-- Innermost body of the potential loop, guarded by the
`dist <= outerRadius` safety check; yields `(neighbor * w, |w|)`. -/
def potentialContrib (expF sqrtF : ℚ → ℚ) (g : Grid) (dims : ℤ)
    (p : SimParamsU) (cx cy cz dx dy dz : ℤ) : ℚ × ℚ :=
  let dist := sqrtF (((dx*dx + dy*dy + dz*dz : ℤ) : ℚ))
  if dist ≤ p.outerRadius then
    let neighbor := loadEnergy g dims (cx+dx) (cy+dy) (cz+dz)
    let w := kernelWeight expF dist p.innerRadius p.innerStrength
      p.outerRadius p.outerStrength
    (neighbor * w, |w|)
  else (0, 0)

/-- The tight-bounds triple loop of the shader (`continue` when the layer/row
is outside the sphere, per-layer bounds `i32(ceil(sqrt(...)))`), accumulating
`(potential, totalWeight)`. -/
def potentialSums (expF sqrtF : ℚ → ℚ) (g : Grid) (dims : ℤ)
    (p : SimParamsU) (cx cy cz : ℤ) : ℚ × ℚ :=
  ∑ dz ∈ Finset.Icc (-KERNEL_SIZE) KERNEL_SIZE,
    (let r2yz := p.outerRadius * p.outerRadius - (dz : ℚ) * (dz : ℚ)
     if r2yz < 0 then (0, 0)
     else
       let dyMax := ⌈sqrtF r2yz⌉
       ∑ dy ∈ Finset.Icc (-dyMax) dyMax,
         (let r2x := r2yz - (dy : ℚ) * (dy : ℚ)
          if r2x < 0 then (0, 0)
          else
            let dxMax := ⌈sqrtF r2x⌉
            ∑ dx ∈ Finset.Icc (-dxMax) dxMax,
              potentialContrib expF sqrtF g dims p cx cy cz dx dy dz))

/-- Potential after normalization by `totalWeight` (when positive). -/
def potentialOf (expF sqrtF : ℚ → ℚ) (g : Grid) (p : SimParamsU)
    (x y z : ℕ) : ℚ :=
  let s := potentialSums expF sqrtF g (p.dimsX : ℤ) p (x : ℤ) (y : ℤ) (z : ℤ)
  if s.2 > 0 then s.1 / s.2 else s.1

/-- `widthEff = max(1e-6, growthWidth * growthWidthNorm)` (shader line in
step 2; `growthWidthNorm` here is the packed width-scale factor). -/
def widthEffOf (growthWidth growthWidthNorm : ℚ) : ℚ :=
  max (1 / 1000000) (growthWidth * growthWidthNorm)

/-- `growth` after subtracting `0.5` and the global-average suppression. -/
def growthOf (expF sqrtF : ℚ → ℚ) (g : Grid) (p : SimParamsU)
    (x y z : ℕ) : ℚ :=
  let pot := potentialOf expF sqrtF g p x y z
  let widthEff := widthEffOf p.growthWidth p.growthWidthNorm
  growthFunction expF pot (g x y z) p.growthCenter widthEff
      p.fissionThreshold p.instabilityFactor
    - 5/10 - p.globalAverage * p.suppressionFactor

/-- `metabolism = currentEnergy² * decayRate`. -/
def metabolismOf (g : Grid) (p : SimParamsU) (x y z : ℕ) : ℚ :=
  g x y z * g x y z * p.decayRate

/-- `diffusion = laplacian(...) * diffusionRate` (the rate has already been
CFL-scaled by the packer). -/
def diffusionOf (g : Grid) (p : SimParamsU) (x y z : ℕ) : ℚ :=
  laplacian g (p.dimsX : ℤ) (x : ℤ) (y : ℤ) (z : ℤ) (g x y z) p.neighborMode
    * p.diffusionRate

/-- Fission noise above the threshold:
`sin((x+y+z + time) * 0.5) * excess * 0.1`. -/
def fissionOf (sinF : ℚ → ℚ) (g : Grid) (p : SimParamsU) (x y z : ℕ) : ℚ :=
  if g x y z > p.fissionThreshold then
    let excess := (g x y z - p.fissionThreshold) / (1 - p.fissionThreshold)
    let chaos := sinF ((((x + y + z : ℕ) : ℚ) + p.time) * (5/10))
    chaos * excess * (1/10)
  else 0

/-- Hash noise: `(hash31(gid + u32(seed*100000)) - 0.5) * 0.001`. -/
def noiseOf (p : SimParamsU) (x y z : ℕ) : ℚ :=
  let sN := (truncQ (p.seed * 100000)).toNat
  (hash31 (x + sN) (y + sN) (z + sN) - 5/10) * (1/1000)

/-- WGSL `clamp(e, lo, hi) = min(max(e, lo), hi)`. -/
def clampQ (x lo hi : ℚ) : ℚ := min (max x lo) hi

/-- The full per-cell update of the compute shader `main` at an in-bounds
invocation `gid = (x, y, z)`. -/
def cellUpdate (expF sinF sqrtF : ℚ → ℚ) (g : Grid) (p : SimParamsU)
    (x y z : ℕ) : ℚ :=
  let currentEnergy := g x y z
  let deltaEnergy :=
    p.growthRate * growthOf expF sqrtF g p x y z
      - metabolismOf g p x y z + diffusionOf g p x y z
      + fissionOf sinF g p x y z + noiseOf p x y z
  clampQ (currentEnergy + deltaEnergy) 0 1

/-! ## Parameter packer (`packSimParams`, src/utils/bufferUtils.js) -/

/-- JS `a || b` on numbers: `b` when `a` is absent (`undefined`) or `0`. -/
def jsOrQ (v : Option ℚ) (d : ℚ) : ℚ :=
  match v with
  | some x => if x = 0 then d else x
  | none => d

/-- Plain JS property read of a field that `DEFAULT_PARAMS` guarantees to be
present (the `getD 0` default is never exercised on reachable records). -/
def getF (p : Params) (k : String) : ℚ := (lookupParam p k).getD 0

/-- Modelled from the spec: the `CFL_SCALES` table of config/constants.js is
not under src/ (only the packer that reads it is, plus an earlier constants
file carrying `DIFFUSION_CFL_SCALE = 1/6` for the 6-neighbor stencil).  The
spec describes it as a fixed per-neighbor-mode stability constant; only the
6-neighbor entry is needed by any claim and is modelled as `1/6`. -/
def CFL_SCALES (mode : ℚ) : Option ℚ := if mode = 6 then some (1/6) else none

/-- `CFL_SCALES[params.neighborMode] || CFL_SCALES[6]`. -/
def cflScaleOf (mode : ℚ) : ℚ :=
  match CFL_SCALES mode with
  | some v => if v = 0 then (CFL_SCALES 6).getD 0 else v
  | none => (CFL_SCALES 6).getD 0

/-- `computeGrowthWidthNorm` (bufferUtils.js): `strength <= 0`
short-circuits to `1.0`; otherwise the Neff branch computes
`pow(clamp(sqrt(30 / max(1, Neff)), 0.01, 10), strength)` with `Math.sqrt`
and `Math.pow` — transcendental, so that branch is abstracted as the
explicit parameter `neffBranch` over which the theorems quantify (no claim
depends on its value). -/
def computeGrowthWidthNorm (neffBranch : Params → ℚ) (p : Params) : ℚ :=
  let strength := (lookupParam p "growthWidthNorm").getD 0
  if strength ≤ 0 then 1 else neffBranch p

/-- JS `ToInt32`: truncate toward zero, wrap into `[-2³¹, 2³¹)`. -/
def jsToInt32 (q : ℚ) : ℤ := Int.bmod (truncQ q) U32

/-- `(params.energyRangeFilters || 0b1111) & 0xF`. -/
def filterBits (p : Params) : ℤ :=
  Int.land (jsToInt32 (jsOrQ (lookupParam p "energyRangeFilters") 15)) 15

/-- `(params.paletteMode || 0) | (filterBits << 2)`. -/
def packedValueOf (p : Params) : ℤ :=
  Int.lor (jsToInt32 (jsOrQ (lookupParam p "paletteMode") 0)) (filterBits p <<< (2 : ℤ))

/-- Camera snapshot handed to the packer by `#writeParamsBuffer`. -/
structure CamInput where
  yaw : ℚ
  pitch : ℚ
  dist : ℚ
  offsetX : ℚ
  offsetY : ℚ

/-- `packSimParams(params, gridSize, camera)`.  Environment-supplied values
are explicit inputs: `piV` for `Math.PI`, `seedV` for `Math.random()`,
`timeV` for `performance.now() * 0.001`. -/
def packSimParams (neffBranch : Params → ℚ) (p : Params) (gridSize : ℕ)
    (cam : CamInput) (piV seedV timeV : ℚ) : SimParamsU :=
  let growthWidthNormF := computeGrowthWidthNorm neffBranch p
  let cflScale := cflScaleOf (getF p "neighborMode")
  { dimsX := gridSize,
    innerRadius := getF p "innerRadius",
    innerStrength := getF p "innerStrength",
    outerRadius := getF p "outerRadius",
    outerStrength := getF p "outerStrength",
    growthCenter := getF p "growthCenter",
    growthWidth := getF p "growthWidth",
    growthRate := getF p "growthRate",
    suppressionFactor := getF p "suppressionFactor",
    globalAverage := jsOrQ (lookupParam p "globalAverage") 0,
    decayRate := getF p "decayRate",
    diffusionRate := getF p "diffusionRate" * cflScale,
    fissionThreshold := getF p "fissionThreshold",
    instabilityFactor := getF p "instabilityFactor",
    growthWidthNorm := growthWidthNormF,
    neighborMode := jsOrQ (lookupParam p "neighborMode") 6,
    raySteps := jsOrQ (lookupParam p "raySteps") 96,
    yawRad := cam.yaw * piV / 180,
    pitchRad := cam.pitch * piV / 180,
    camDistance := cam.dist,
    seed := seedV,
    offsetX := cam.offsetX,
    offsetY := cam.offsetY,
    time := timeV,
    packed := ((packedValueOf p : ℤ) : ℚ) }

/-! ## Simulation state: double buffering and reduction control

State of `WebGPUSimulation3D` relevant to the claims: the parameter record,
the two field textures with the active index, and the reduction in-flight
flag with its outstanding read-back value. -/

structure SimState where
  params : Params
  gridSize : ℕ
  buf0 : Grid
  buf1 : Grid
  currentIndex : Bool
  isReducing : Bool
  inFlight : Option ℚ

/-- `fieldTextures[this.currentIndex]`: the active (read) buffer. -/
def activeBuf (s : SimState) : Grid := if s.currentIndex then s.buf1 else s.buf0

/-- `fieldTextures[1 - this.currentIndex]`: the kernel's write target. -/
def writeTargetBuf (s : SimState) : Grid :=
  if s.currentIndex then s.buf0 else s.buf1

/-- `#computePass`: bind the active buffer for reading and the other buffer
for writing, dispatch the kernel over the grid (invocations outside
`params.dims` return without storing), then flip `currentIndex` once. -/
def computePass (expF sinF sqrtF : ℚ → ℚ) (pp : SimParamsU) (s : SimState) :
    SimState :=
  let newGrid : Grid := fun x y z =>
    if x < pp.dimsX ∧ y < pp.dimsX ∧ z < pp.dimsX then
      cellUpdate expF sinF sqrtF (activeBuf s) pp x y z
    else writeTargetBuf s x y z
  if s.currentIndex then
    { s with buf0 := newGrid, currentIndex := !s.currentIndex }
  else
    { s with buf1 := newGrid, currentIndex := !s.currentIndex }

/-- `#reducePassAndRead`, request side: `if (this.isReducing) return;` — a
trigger while one reduction is outstanding changes nothing and queues
nothing.  Otherwise the flag is set, the whole downsample chain over the
active buffer is submitted and its final 1³ texel becomes the outstanding
read-back value. -/
def reduceTrigger (s : SimState) : SimState :=
  if s.isReducing then s
  else { s with isReducing := true,
                inFlight := some (runReduce (activeBuf s) s.gridSize) }

/-- `#reducePassAndRead`, completion side: the mapped scalar overwrites
`params.globalAverage` (adding the key on first completion) and the
`finally` block clears the flag. -/
def reduceComplete (s : SimState) : SimState :=
  match s.inFlight with
  | some v =>
      { s with params := setParamField s.params "globalAverage" v,
               isReducing := false, inFlight := none }
  | none => s

/-- `#reducePassAndRead`, failure side: `mapAsync` rejected; the `finally`
block still clears the flag and `globalAverage` is untouched. -/
def reduceFail (s : SimState) : SimState :=
  { s with isReducing := false, inFlight := none }

/-- `updateParam` acting on the whole state (it touches only `params`). -/
def updateParamS (s : SimState) (k : String) (v : ℚ) : SimState :=
  { s with params := updateParam s.params k v }

/-- The externally observable events that can change the modelled state. -/
inductive SimEvent where
  | update (k : String) (v : ℚ)
  | compute (expF sinF sqrtF : ℚ → ℚ) (pp : SimParamsU)
  | trigger
  | complete
  | fail

def stepEvent (s : SimState) : SimEvent → SimState
  | .update k v => updateParamS s k v
  | .compute expF sinF sqrtF pp => computePass expF sinF sqrtF pp s
  | .trigger => reduceTrigger s
  | .complete => reduceComplete s
  | .fail => reduceFail s

def runEvents (s : SimState) (evs : List SimEvent) : SimState :=
  evs.foldl stepEvent s

/-- Boot state: `params = { ...DEFAULT_PARAMS }`, `currentIndex = 0`,
`isReducing = false`, no outstanding read-back; `b0 b1` are the seeded
grid contents. -/
def initState (gridSize : ℕ) (b0 b1 : Grid) : SimState :=
  { params := DEFAULT_PARAMS, gridSize := gridSize, buf0 := b0, buf1 := b1,
    currentIndex := false, isReducing := false, inFlight := none }

/-- A key other than `globalAverage` that is absent from the record stays
absent across every event. -/
theorem lookupParam_stepEvent_none (s : SimState) (e : SimEvent) (k : String)
    (hk : k ≠ "globalAverage") (h : lookupParam s.params k = none) :
    lookupParam (stepEvent s e).params k = none := by
  cases e with
  | update k' v =>
      show lookupParam (updateParam s.params k' v) k = none
      rw [lookupParam_updateParam]
      by_cases hkk : k = k'
      · subst hkk
        simp [h]
      · simp [hkk, h]
  | compute expF sinF sqrtF pp =>
      show lookupParam (computePass expF sinF sqrtF pp s).params k = none
      unfold computePass
      by_cases hc : s.currentIndex <;> simp [hc, h]
  | trigger =>
      show lookupParam (reduceTrigger s).params k = none
      unfold reduceTrigger
      by_cases hr : s.isReducing <;> simp [hr, h]
  | complete =>
      show lookupParam (reduceComplete s).params k = none
      unfold reduceComplete
      cases hf : s.inFlight with
      | none => simpa using h
      | some v =>
          simp only []
          rw [lookupParam_setParamField]
          simp [hk, h]
  | fail =>
      show lookupParam (reduceFail s).params k = none
      simpa [reduceFail] using h

theorem lookupParam_runEvents_none (evs : List SimEvent) (k : String)
    (hk : k ≠ "globalAverage") :
    ∀ s : SimState, lookupParam s.params k = none →
      lookupParam (runEvents s evs).params k = none := by
  induction evs with
  | nil => exact fun s h => h
  | cons e rest ih =>
      intro s h
      exact ih (stepEvent s e) (lookupParam_stepEvent_none s e k hk h)

/-! ## The claims -/

/-- Claim C1: for every input grid, every parameter record and every cell,
the energy value written by one kernel invocation lies in [0,1] — the
shader ends with `clamp(currentEnergy + deltaEnergy, 0.0, 1.0)`, so the
field stays in [0,1] after each sub-step of every frame. -/
theorem c1_energy_in_unit_interval (expF sinF sqrtF : ℚ → ℚ) (g : Grid)
    (p : SimParamsU) (x y z : ℕ) :
    0 ≤ cellUpdate expF sinF sqrtF g p x y z ∧
      cellUpdate expF sinF sqrtF g p x y z ≤ 1 := by
  simp only [cellUpdate, clampQ]
  exact ⟨le_min (le_max_right _ _) zero_le_one, min_le_right _ _⟩

/-- All-ones grid: the failing input for the reduction claim. -/
def onesGrid : Grid := fun _ _ _ => 1

/-- A full-block pass at output cell `(0,0,0)` over a level texture that is
zero except its corner texel divides the corner value by 8 (for any input
side ≥ 2 all eight block cells are in bounds). -/
theorem reducePass_cornerOnly (v : ℚ) (s : ℕ) (hs : 2 ≤ s) :
    reducePass (cornerOnly v) s 0 0 0 = v / 8 := by
  have h0 : 0 < s := by omega
  have h1 : 1 < s := by omega
  simp +decide [reducePass, reduceCellSum, reduceCellCount, inB, cntB,
    cornerOnly, h0, h1]
  norm_num [max_def]

/-- Once the chain is down to corner-only levels, each further pass divides
by 8: over a power-of-two remaining side the final read-back is `v / 8^k`. -/
theorem runReduce_cornerOnly_pow2 (v : ℚ) (k : ℕ) :
    runReduce (cornerOnly v) (2 ^ k) = v / 8 ^ k := by
  induction k generalizing v with
  | zero =>
      rw [runReduce]
      norm_num [cornerOnly]
  | succ k ih =>
      have hpow : (1 : ℕ) ≤ 2 ^ k := Nat.one_le_two_pow
      have hlt : 1 < 2 ^ (k + 1) := by
        have : (2 : ℕ) ^ (k + 1) = 2 * 2 ^ k := by rw [pow_succ]; ring
        omega
      rw [runReduce, if_pos hlt,
        reducePass_cornerOnly v (2 ^ (k + 1)) (by omega)]
      have hhalf : max 1 (2 ^ (k + 1) / 2) = 2 ^ k := by
        have : (2 : ℕ) ^ (k + 1) = 2 * 2 ^ k := by rw [pow_succ]; ring
        omega
      rw [hhalf, ih, div_div, ← pow_succ']

/-- A first pass over the all-ones grid writes 1 into the corner texel. -/
theorem reducePass_ones (s : ℕ) (hs : 2 ≤ s) :
    reducePass onesGrid s 0 0 0 = 1 := by
  have h0 : 0 < s := by omega
  have h1 : 1 < s := by omega
  simp +decide [reducePass, reduceCellSum, reduceCellCount, inB, cntB,
    onesGrid, h0, h1]
  norm_num [max_def]

/-- Claim C2 (code bug): the spec-described chain `runReduceSpec` does
produce the exact arithmetic mean for a power-of-two side, but the chain as
the host actually executes it (`runReduce`: the shared `reduceParamBuffer`
holds the last-written `outSize = (1,1,1)` when the single submit runs, so
each pass computes only the corner texel of its level) does not: on the
all-ones 4³ grid, whose true mean is 1, the read-back is 1/8, and on the
all-ones 64³ preset it is 1/32768. -/
theorem c2_reduction_mean_code_bug :
    runReduce onesGrid 4 = 1/8 ∧
    sum3 4 onesGrid / (((4 : ℕ) : ℚ)) ^ 3 = 1 ∧
    runReduce onesGrid 4 ≠ sum3 4 onesGrid / (((4 : ℕ) : ℚ)) ^ 3 ∧
    runReduce onesGrid 64 = 1/32768 ∧
    runReduceSpec onesGrid (2 ^ 2) 0 0 0
      = sum3 (2 ^ 2) onesGrid / (((2 : ℕ) ^ 2 : ℚ)) ^ 3 := by
  have h4 : runReduce onesGrid 4 = 1/8 := by
    rw [runReduce, if_pos (by norm_num), reducePass_ones 4 (by norm_num)]
    have h := runReduce_cornerOnly_pow2 1 1
    norm_num at h
    norm_num [h]
  have hsum : sum3 4 onesGrid / (((4 : ℕ) : ℚ)) ^ 3 = 1 := by
    norm_num [sum3, onesGrid, Finset.sum_const, Finset.card_range]
  have h64 : runReduce onesGrid 64 = 1/32768 := by
    rw [runReduce, if_pos (by norm_num), reducePass_ones 64 (by norm_num)]
    have h := runReduce_cornerOnly_pow2 1 5
    norm_num at h
    norm_num [h]
  refine ⟨h4, hsum, ?_, h64, runReduceSpec_pow2 2 onesGrid⟩
  rw [h4, hsum]
  norm_num

/-- Claim C3: for every record with `growthWidthNorm = 0` and any kernel
shape, the packer's width-scale factor is exactly 1 (the Neff correction is
disabled), and the kernel's effective width then equals `growthWidth`
exactly — using that every in-domain record has `growthWidth ≥ 0.0001 ≥
1e-6`, the shader's `max(1e-6, ·)` floor. -/
theorem c3_growth_width_norm_disabled (neffBranch : Params → ℚ) (p : Params)
    (gridSize : ℕ) (cam : CamInput) (piV seedV timeV : ℚ)
    (h0 : lookupParam p "growthWidthNorm" = some 0)
    (hw : 1 / 1000000 ≤ getF p "growthWidth") :
    (packSimParams neffBranch p gridSize cam piV seedV timeV).growthWidthNorm
        = 1 ∧
    widthEffOf
        (packSimParams neffBranch p gridSize cam piV seedV timeV).growthWidth
        (packSimParams neffBranch p gridSize cam piV seedV timeV).growthWidthNorm
      = getF p "growthWidth" := by
  have h1 : computeGrowthWidthNorm neffBranch p = 1 := by
    unfold computeGrowthWidthNorm
    rw [h0]
    norm_num
  refine ⟨h1, ?_⟩
  show widthEffOf (getF p "growthWidth") (computeGrowthWidthNorm neffBranch p)
      = getF p "growthWidth"
  rw [h1]
  unfold widthEffOf
  rw [mul_one]
  exact max_eq_right hw

theorem c3_growth_width_norm_disabled_witness :
    lookupParam (updateParam DEFAULT_PARAMS "growthWidthNorm" 0)
        "growthWidthNorm" = some 0 ∧
    (1 / 1000000 : ℚ)
        ≤ getF (updateParam DEFAULT_PARAMS "growthWidthNorm" 0) "growthWidth" ∧
    (packSimParams (fun _ => 0) (updateParam DEFAULT_PARAMS "growthWidthNorm" 0)
        64 ⟨0, 0, 22/10, 0, 0⟩ 3 (1/2) 0).growthWidthNorm = 1 := by
  have h0 : lookupParam (updateParam DEFAULT_PARAMS "growthWidthNorm" 0)
      "growthWidthNorm" = some 0 := by
    simp +decide [lookupParam, updateParam, setParamField, DEFAULT_PARAMS]
  have hw : (1 / 1000000 : ℚ)
      ≤ getF (updateParam DEFAULT_PARAMS "growthWidthNorm" 0) "growthWidth" := by
    have hl : lookupParam (updateParam DEFAULT_PARAMS "growthWidthNorm" 0)
        "growthWidth" = some (1/10) := by
      simp +decide [lookupParam, updateParam, setParamField, DEFAULT_PARAMS]
    unfold getF
    rw [hl]
    norm_num
  exact ⟨h0, hw,
    (c3_growth_width_norm_disabled (fun _ => 0)
      (updateParam DEFAULT_PARAMS "growthWidthNorm" 0) 64 ⟨0, 0, 22/10, 0, 0⟩
      3 (1/2) 0 h0 hw).1⟩

/-- Claim C4 counterexample: `updateParam("decayRate", -5)` stores −5 even
though the documented domain of `decayRate` is [0, 1], and the stored value
reaches the kernel through the next pack (as `economy.y`). -/
theorem c4_counterexample :
    lookupParam (updateParam DEFAULT_PARAMS "decayRate" (-5)) "decayRate"
        = some (-5) ∧
    specFor PARAM_SPECS "decayRate" = some (0, 1) ∧
    ¬ ((0 : ℚ) ≤ -5) ∧
    (packSimParams (fun _ => 0) (updateParam DEFAULT_PARAMS "decayRate" (-5))
        64 ⟨0, 0, 22/10, 0, 0⟩ 3 (1/2) 0).decayRate = -5 := by
  have hl : lookupParam (updateParam DEFAULT_PARAMS "decayRate" (-5)) "decayRate"
      = some (-5) := by
    simp +decide [lookupParam, updateParam, setParamField, DEFAULT_PARAMS]
  refine ⟨hl, ?_, by norm_num, ?_⟩
  · simp +decide [specFor, PARAM_SPECS]
  · show getF (updateParam DEFAULT_PARAMS "decayRate" (-5)) "decayRate" = -5
    unfold getF
    rw [hl]
    rfl

/-- Claim C4 (amended): `updateParam` with an unknown key leaves the record
unchanged, but for a known key the supplied value is stored verbatim — no
per-field clamping or rejection happens, so out-of-domain values are stored
and reach the next pack. -/
theorem c4_update_param_amended :
    (∀ (p : Params) (k : String) (v : ℚ),
        lookupParam p k = none → updateParam p k v = p) ∧
    (∀ (p : Params) (k : String) (v : ℚ),
        (lookupParam p k).isSome = true →
          lookupParam (updateParam p k v) k = some v) := by
  constructor
  · intro p k v h
    unfold updateParam
    simp [h]
  · intro p k v h
    rw [lookupParam_updateParam]
    simp [h]

theorem c4_update_param_amended_witness :
    (lookupParam DEFAULT_PARAMS "volume" = none ∧
      updateParam DEFAULT_PARAMS "volume" 7 = DEFAULT_PARAMS) ∧
    ((lookupParam DEFAULT_PARAMS "decayRate").isSome = true ∧
      lookupParam (updateParam DEFAULT_PARAMS "decayRate" (-5)) "decayRate"
        = some (-5)) :=
  ⟨⟨by simp +decide [lookupParam, DEFAULT_PARAMS],
    c4_update_param_amended.1 DEFAULT_PARAMS "volume" 7
      (by simp +decide [lookupParam, DEFAULT_PARAMS])⟩,
   ⟨by simp +decide [lookupParam, DEFAULT_PARAMS],
    c4_update_param_amended.2 DEFAULT_PARAMS "decayRate" (-5)
      (by simp +decide [lookupParam, DEFAULT_PARAMS])⟩⟩

/-- Claim C5 counterexample: a single `setRotation(0, 500)` from the initial
state stores pitch 500 unclamped, violating the pitch invariant. -/
theorem c5_counterexample :
    (applyCamOps camInit [CamOp.setRot 0 500]).pitch = 500 ∧
    ¬ camInvariant (applyCamOps camInit [CamOp.setRot 0 500]) := by
  have hp : (applyCamOps camInit [CamOp.setRot 0 500]).pitch = 500 := rfl
  refine ⟨hp, fun hinv => ?_⟩
  have h179 := hinv.1.2
  rw [hp] at h179
  norm_num at h179

/-- Claim C5 (amended): starting from the initial camera state, the distance
and pan invariants hold after any finite sequence of camera operations; the
pitch invariant additionally holds provided each `setRotation` in the
sequence is called with a pitch argument already in `[-179, 179]`
(`setRotation` stores its arguments without clamping). -/
theorem c5_camera_invariants_amended :
    (∀ ops : List CamOp, distPanInv (applyCamOps camInit ops)) ∧
    (∀ ops : List CamOp, (∀ op ∈ ops, setRotPitchOk op) →
        camInvariant (applyCamOps camInit ops)) := by
  have hinit1 : distPanInv camInit := by
    unfold distPanInv camInit CAMERA_BOUNDS_MIN CAMERA_BOUNDS_MAX
      INITIAL_DISTANCE
    norm_num
  have hinit2 : pitchInv camInit := by
    unfold pitchInv camInit
    norm_num
  refine ⟨fun ops => distPanInv_foldl ops camInit hinit1, fun ops hall => ?_⟩
  exact ⟨pitchInv_foldl ops camInit hinit2 hall,
    distPanInv_foldl ops camInit hinit1⟩

/-- Operation sequence exercised by the camera witness. -/
def c5ops : List CamOp :=
  [CamOp.setRot 30 100, CamOp.adjRot 1 1 57, CamOp.adjDist (-2),
   CamOp.panStep 1 0 (mkRat 1 10) true false false true]

theorem c5_camera_invariants_amended_witness :
    (∀ op ∈ c5ops, setRotPitchOk op) ∧
    camInvariant (applyCamOps camInit c5ops) :=
  ⟨by decide, c5_camera_invariants_amended.2 c5ops (by decide)⟩

/-- Claim C6: at most one reduction is in flight — a trigger that arrives
while `isReducing` performs no passes, changes no state and queues nothing;
a completion stores the scalar into `globalAverage` and releases the flag;
a failed read-back also releases the flag. -/
theorem c6_single_flight :
    (∀ s : SimState, s.isReducing = true → reduceTrigger s = s) ∧
    (∀ (s : SimState) (v : ℚ), s.inFlight = some v →
        (reduceComplete s).isReducing = false ∧
        lookupParam (reduceComplete s).params "globalAverage" = some v) ∧
    (∀ s : SimState, (reduceFail s).isReducing = false) := by
  refine ⟨?_, ?_, fun s => rfl⟩
  · intro s h
    unfold reduceTrigger
    rw [if_pos h]
  · intro s v h
    unfold reduceComplete
    rw [h]
    refine ⟨rfl, ?_⟩
    show lookupParam (setParamField s.params "globalAverage" v) "globalAverage"
        = some v
    rw [lookupParam_setParamField]
    simp

/-- A state with a reduction outstanding, used by the single-flight
witness. -/
def busyState : SimState :=
  { params := DEFAULT_PARAMS, gridSize := 2, buf0 := fun _ _ _ => mkRat 1 2,
    buf1 := fun _ _ _ => 0, currentIndex := false, isReducing := true,
    inFlight := some (mkRat 1 2) }

theorem c6_single_flight_witness :
    busyState.isReducing = true ∧ reduceTrigger busyState = busyState ∧
    busyState.inFlight = some (mkRat 1 2) ∧
    (reduceComplete busyState).isReducing = false :=
  ⟨rfl, c6_single_flight.1 busyState rfl, rfl,
   (c6_single_flight.2.1 busyState (mkRat 1 2) rfl).1⟩

/-- Claim C7: within one kernel sub-step the read buffer and write buffer
are the two distinct textures (`currentIndex` vs `1 - currentIndex`), the
active index is swapped exactly once at the end of the sub-step, and the
render pass / reduction trigger (both reading
`fieldTextures[currentIndex]`) afterwards read exactly the buffer that was
just written, with the old read buffer becoming the next write target. -/
theorem c7_double_buffering (expF sinF sqrtF : ℚ → ℚ) (pp : SimParamsU)
    (s : SimState) :
    s.currentIndex ≠ (!s.currentIndex) ∧
    (computePass expF sinF sqrtF pp s).currentIndex = !s.currentIndex ∧
    activeBuf (computePass expF sinF sqrtF pp s) = (fun x y z =>
      if x < pp.dimsX ∧ y < pp.dimsX ∧ z < pp.dimsX then
        cellUpdate expF sinF sqrtF (activeBuf s) pp x y z
      else writeTargetBuf s x y z) ∧
    writeTargetBuf (computePass expF sinF sqrtF pp s) = activeBuf s := by
  cases hc : s.currentIndex with
  | false =>
      refine ⟨by simp [hc], ?_, ?_, ?_⟩ <;>
        simp [computePass, activeBuf, writeTargetBuf, hc]
  | true =>
      refine ⟨by simp [hc], ?_, ?_, ?_⟩ <;>
        simp [computePass, activeBuf, writeTargetBuf, hc]

/-- Claim C8 counterexample — states reached by: boot with a constant-½
active grid, trigger and complete one reduction, then call
`updateParam("globalAverage", 9/10)`. -/
def halfGrid : Grid := fun _ _ _ => 1/2

def c8Init : SimState := initState 2 halfGrid (fun _ _ _ => 0)

def c8AfterReduce : SimState := reduceComplete (reduceTrigger c8Init)

def c8AfterUpdate : SimState :=
  updateParamS c8AfterReduce "globalAverage" (9/10 : ℚ)

/-- Claim C8 counterexample: once a reduction completion has stored
`globalAverage` (= ½ here), the key exists in the record, so
`updateParam("globalAverage", 9/10)` does overwrite it. -/
theorem c8_counterexample :
    lookupParam c8AfterReduce.params "globalAverage" = some (1/2 : ℚ) ∧
    lookupParam c8AfterUpdate.params "globalAverage" = some (9/10 : ℚ) := by
  have hrun : runReduce halfGrid 2 = 1/2 := by
    have hp : reducePass halfGrid 2 0 0 0 = 1/2 := by
      simp +decide [reducePass, reduceCellSum, reduceCellCount, inB, cntB,
        halfGrid]
      norm_num [max_def]
    rw [runReduce, if_pos (by norm_num), hp]
    have h := runReduce_cornerOnly_pow2 (1/2) 0
    norm_num at h
    norm_num [h]
  have ht : reduceTrigger c8Init
      = { c8Init with isReducing := true, inFlight := some (1/2 : ℚ) } := by
    simp [reduceTrigger, c8Init, initState, activeBuf, hrun]
  have hc : c8AfterReduce.params
      = setParamField DEFAULT_PARAMS "globalAverage" (1/2 : ℚ) := by
    unfold c8AfterReduce
    rw [ht]
    rfl
  constructor
  · rw [hc, lookupParam_setParamField]
    simp
  · show lookupParam (updateParam c8AfterReduce.params "globalAverage"
        (9/10 : ℚ)) "globalAverage" = some (9/10 : ℚ)
    rw [lookupParam_updateParam, hc, lookupParam_setParamField]
    simp

/-- Claim C8 (amended): `updateParam` can never introduce `globalAverage`
into a record that lacks it (so before the first reduction completes the
user cannot set it), and updates to other keys never change it; a reduction
completion overwrites it with the read-back scalar.  However, once a
completion has stored the key, `updateParam("globalAverage", v)` does
modify it (see the counterexample). -/
theorem c8_global_average_amended :
    (∀ (p : Params) (k : String) (v : ℚ),
        lookupParam p "globalAverage" = none →
          lookupParam (updateParam p k v) "globalAverage" = none) ∧
    (∀ (p : Params) (k : String) (v : ℚ), k ≠ "globalAverage" →
        lookupParam (updateParam p k v) "globalAverage"
          = lookupParam p "globalAverage") ∧
    (∀ (s : SimState) (v : ℚ), s.inFlight = some v →
        lookupParam (reduceComplete s).params "globalAverage" = some v) := by
  refine ⟨?_, ?_, ?_⟩
  · intro p k v h
    rw [lookupParam_updateParam]
    by_cases hkk : "globalAverage" = k
    · subst hkk
      simp [h]
    · simp [hkk, h]
  · intro p k v hk
    rw [lookupParam_updateParam]
    have : ¬ "globalAverage" = k := fun hh => hk hh.symm
    simp [this]
  · intro s v h
    unfold reduceComplete
    rw [h]
    show lookupParam (setParamField s.params "globalAverage" v) "globalAverage"
        = some v
    rw [lookupParam_setParamField]
    simp

theorem c8_global_average_amended_witness :
    lookupParam DEFAULT_PARAMS "globalAverage" = none ∧
    lookupParam (updateParam DEFAULT_PARAMS "globalAverage" (mkRat 9 10))
        "globalAverage" = none := by
  have h : lookupParam DEFAULT_PARAMS "globalAverage" = none := by
    simp +decide [lookupParam, DEFAULT_PARAMS]
  exact ⟨h, c8_global_average_amended.1 DEFAULT_PARAMS "globalAverage"
    (mkRat 9 10) h⟩

/-- Claim C10: `energyRangeFilters` is not a key of `DEFAULT_PARAMS` and no
event ever adds it (reduction completion adds only `globalAverage`), so
every `updateParam('energyRangeFilters', bits)` is a no-op and the packer's
visibility-filter bitmask is always `0b1111`, whatever sequence of UI
filter changes (or any other events) occurred. -/
theorem c10_energy_filters_noop (gridSize : ℕ) (b0 b1 : Grid)
    (evs : List SimEvent) :
    lookupParam (runEvents (initState gridSize b0 b1) evs).params
        "energyRangeFilters" = none ∧
    filterBits (runEvents (initState gridSize b0 b1) evs).params = 15 := by
  have hnone : lookupParam (runEvents (initState gridSize b0 b1) evs).params
      "energyRangeFilters" = none :=
    lookupParam_runEvents_none evs _ (by decide) (initState gridSize b0 b1)
      (by simp +decide [lookupParam, initState, DEFAULT_PARAMS])
  refine ⟨hnone, ?_⟩
  unfold filterBits
  rw [hnone]
  decide

/-! ## Claim C9: the 4×4×4 single-seed diffusion scenario -/

theorem hash31_nonneg (a b c : ℕ) : 0 ≤ hash31 a b c := by
  simp only [hash31]
  positivity

theorem noiseOf_ge (p : SimParamsU) (x y z : ℕ) :
    -(1/2000) ≤ noiseOf p x y z := by
  simp only [noiseOf]
  have h := hash31_nonneg (x + (truncQ (p.seed * 100000)).toNat)
    (y + (truncQ (p.seed * 100000)).toNat)
    (z + (truncQ (p.seed * 100000)).toNat)
  nlinarith [h]

/-- A cell currently at zero energy, with `growthRate = 0` and diffusion
gain exceeding the worst-case hash noise `1/2000`, ends the sub-step with
strictly positive energy. -/
theorem cellUpdate_pos (expF sinF sqrtF : ℚ → ℚ) (g : Grid) (p : SimParamsU)
    (x y z : ℕ) (hg : p.growthRate = 0) (hcur : g x y z = 0)
    (hth : ¬ g x y z > p.fissionThreshold)
    (hd : 1/2000 < diffusionOf g p x y z) :
    0 < cellUpdate expF sinF sqrtF g p x y z := by
  have hnoise := noiseOf_ge p x y z
  have hmet : metabolismOf g p x y z = 0 := by
    unfold metabolismOf
    rw [hcur]
    ring
  have hfis : fissionOf sinF g p x y z = 0 := by
    unfold fissionOf
    rw [if_neg hth]
  simp only [cellUpdate, clampQ]
  rw [hcur, hg, hmet, hfis, zero_mul]
  refine lt_min (lt_of_lt_of_le ?_ (le_max_left _ _)) one_pos
  linarith

/-- The scenario grid: a single cell of energy 1 at the origin. -/
def g0 : Grid := fun x y z => if x = 0 ∧ y = 0 ∧ z = 0 then 1 else 0

/-- The scenario record: defaults with `diffusionRate = 1` and all other
rates 0, set through `updateParam`. -/
def scenarioParams : Params :=
  updateParam (updateParam (updateParam DEFAULT_PARAMS "diffusionRate" 1)
    "growthRate" 0) "decayRate" 0

/-- The scenario uniform block: the scenario record packed for a 4×4×4
grid. -/
def scenarioPacked (neffBranch : Params → ℚ) (cam : CamInput)
    (piV seedV timeV : ℚ) : SimParamsU :=
  packSimParams neffBranch scenarioParams 4 cam piV seedV timeV

/-- Claim C9: in the 4×4×4 single-seed scenario with `diffusionRate = 1`,
all other rates 0 and 6-neighbor diffusion, after one sub-step each of the
six toroidally face-adjacent neighbors of the seed — `(1,0,0)`, `(3,0,0)`,
`(0,1,0)`, `(0,3,0)`, `(0,0,1)`, `(0,0,3)` — has strictly positive energy,
and the seed cell's diffusion contribution before clamping is exactly
`-6 * 1 * diffusionRate * cflScale(6)`. -/
theorem c9_diffusion_scenario (neffBranch : Params → ℚ)
    (expF sinF sqrtF : ℚ → ℚ) (cam : CamInput) (piV seedV timeV : ℚ) :
    diffusionOf g0 (scenarioPacked neffBranch cam piV seedV timeV) 0 0 0
      = -6 * 1 * getF scenarioParams "diffusionRate"
          * (CFL_SCALES 6).getD 0 ∧
    (0 < cellUpdate expF sinF sqrtF g0
          (scenarioPacked neffBranch cam piV seedV timeV) 1 0 0 ∧
     0 < cellUpdate expF sinF sqrtF g0
          (scenarioPacked neffBranch cam piV seedV timeV) 3 0 0 ∧
     0 < cellUpdate expF sinF sqrtF g0
          (scenarioPacked neffBranch cam piV seedV timeV) 0 1 0 ∧
     0 < cellUpdate expF sinF sqrtF g0
          (scenarioPacked neffBranch cam piV seedV timeV) 0 3 0 ∧
     0 < cellUpdate expF sinF sqrtF g0
          (scenarioPacked neffBranch cam piV seedV timeV) 0 0 1 ∧
     0 < cellUpdate expF sinF sqrtF g0
          (scenarioPacked neffBranch cam piV seedV timeV) 0 0 3) := by
  have h16 : ((1/6 : ℚ) = 0) = False := by norm_num
  have hgr : (scenarioPacked neffBranch cam piV seedV timeV).growthRate = 0 := by
    show getF scenarioParams "growthRate" = 0
    simp +decide [getF, scenarioParams, lookupParam, updateParam, setParamField,
      DEFAULT_PARAMS]
  have hnm : (scenarioPacked neffBranch cam piV seedV timeV).neighborMode = 6 := by
    show jsOrQ (lookupParam scenarioParams "neighborMode") 6 = 6
    simp +decide [jsOrQ, scenarioParams, lookupParam, updateParam, setParamField,
      DEFAULT_PARAMS]
  have hdr : (scenarioPacked neffBranch cam piV seedV timeV).diffusionRate
      = 1/6 := by
    show getF scenarioParams "diffusionRate"
        * cflScaleOf (getF scenarioParams "neighborMode") = 1/6
    simp +decide [getF, cflScaleOf, CFL_SCALES, scenarioParams, lookupParam,
      updateParam, setParamField, DEFAULT_PARAMS, h16]
  have hth : (scenarioPacked neffBranch cam piV seedV timeV).fissionThreshold
      = 888/1000 := by
    show getF scenarioParams "fissionThreshold" = 888/1000
    simp +decide [getF, scenarioParams, lookupParam, updateParam, setParamField,
      DEFAULT_PARAMS]
  have hdim : (scenarioPacked neffBranch cam piV seedV timeV).dimsX = 4 := rfl
  constructor
  · show laplacian g0
        (((scenarioPacked neffBranch cam piV seedV timeV).dimsX : ℕ) : ℤ)
        ((0 : ℕ) : ℤ) ((0 : ℕ) : ℤ) ((0 : ℕ) : ℤ) (g0 0 0 0)
        (scenarioPacked neffBranch cam piV seedV timeV).neighborMode
        * (scenarioPacked neffBranch cam piV seedV timeV).diffusionRate = _
    rw [hnm, hdr, hdim]
    have hl : laplacian g0 ((4 : ℕ) : ℤ) ((0 : ℕ) : ℤ) ((0 : ℕ) : ℤ)
        ((0 : ℕ) : ℤ) (g0 0 0 0) 6 = -6 := by
      simp +decide [laplacian, loadEnergy, wrapCoord, g0]
    rw [hl]
    have hgf : getF scenarioParams "diffusionRate" = 1 := by
      simp +decide [getF, scenarioParams, lookupParam, updateParam,
        setParamField, DEFAULT_PARAMS]
    rw [hgf]
    simp +decide [CFL_SCALES]
  · refine ⟨?_, ?_, ?_, ?_, ?_, ?_⟩ <;>
      (apply cellUpdate_pos _ _ _ _ _ _ _ _ hgr
       · simp +decide [g0]
       · rw [hth]
         norm_num [g0]
       · simp only [diffusionOf]
         rw [hnm, hdr, hdim]
         simp +decide [laplacian, loadEnergy, wrapCoord, g0]
         norm_num)

end Wigle
